import Mathlib

/-!
Verification of the SHA3 TxPoW accelerator core against its specification.

The definitions below are a shallow embedding of the Python/Migen sources:
* `Utils`   — src/utils.py (round constants, rho offsets, rol64)
* `KeccakHw` — src/keccak_core.py (KeccakCore: one combinational Keccak-f[1600] round)
* `Sha3Ref` — src/VerificationTest/sha3_function.py (software reference implementation)
* `ClzHw`   — src/CountLeadingZero/clz_module.py (CountLeadingZeros)
* `Datapath` — src/keccak_datapath_simd.py (KeccakDatapath: padding, nonce masks, FSM)

Hardware signals of width w are modelled as natural numbers below 2^w; register
assignment truncation is made explicit with `% 2^w` where the assigned value could
exceed the width.  A 25-lane Keccak state is modelled as a function `Nat → Nat`
whose indices 0..24 carry the 64-bit lanes (`Cat` order of the source).
-/

namespace Utils

/-- Round constants from src/utils.py (`KECCAK_ROUND_CONSTANTS`); the 24-entry
literal is written as two joined halves. -/
def KECCAK_ROUND_CONSTANTS : List Nat := [
  0x0000000000000001, 0x0000000000008082, 0x800000000000808A, 0x8000000080008000,
  0x000000000000808B, 0x0000000080000001, 0x8000000080008081, 0x8000000000008009,
  0x000000000000008A, 0x0000000000000088, 0x0000000080008009, 0x000000008000000A] ++ [
  0x000000008000808B, 0x800000000000008B, 0x8000000000008089, 0x8000000000008003,
  0x8000000000008002, 0x8000000000000080, 0x000000000000800A, 0x800000008000000A,
  0x8000000080008081, 0x8000000000008080, 0x0000000080000001, 0x8000000080008008]

/-- Rho rotation offsets from src/utils.py (`RHO_OFFSETS`), indexed `[y][x]`. -/
def RHO_OFFSETS : List (List Nat) := [
  [0, 1, 62, 28, 27],
  [36, 44, 6, 55, 20],
  [3, 10, 43, 25, 39],
  [41, 45, 15, 21, 8],
  [18, 2, 61, 56, 14]]

/-- Left rotation of a 64-bit value, from src/utils.py `rol64`: the `shift = 0`
case returns the value unchanged, otherwise the result is truncated to 64 bits
(the `[:64]` slice). -/
def rol64 (value shift : Nat) : Nat :=
  if shift = 0 then value
  else ((value <<< shift) ||| (value >>> (64 - shift))) % 2 ^ 64

end Utils

namespace KeccakHw

/-- Theta parity `C[x]` of column `x`, from src/keccak_core.py. -/
def theta_c (A : Nat → Nat) (x : Nat) : Nat :=
  A (x + 0 * 5) ^^^ A (x + 1 * 5) ^^^ A (x + 2 * 5) ^^^ A (x + 3 * 5) ^^^ A (x + 4 * 5)

/-- Theta `D[x] = C[x-1] ^ ROL(C[x+1], 1)`, from src/keccak_core.py. -/
def theta_d (A : Nat → Nat) (x : Nat) : Nat :=
  theta_c A ((x + 4) % 5) ^^^ Utils.rol64 (theta_c A ((x + 1) % 5)) 1

/-- Theta output `A'[x,y] = A[x,y] ^ D[x]` with flat index `x + 5y`. -/
def theta_out (A : Nat → Nat) (k : Nat) : Nat :=
  A k ^^^ theta_d A (k % 5)

/-- Rho output: each lane rotated by `RHO_OFFSETS[y][x]`. -/
def rho_out (T : Nat → Nat) (k : Nat) : Nat :=
  Utils.rol64 (T k) ((Utils.RHO_OFFSETS.getD (k / 5) []).getD (k % 5) 0)

/-- Destination index of the pi step for source index `k = x + 5y`:
`dest_x = y`, `dest_y = (2x + 3y) % 5` as in src/keccak_core.py. -/
def pi_dest (k : Nat) : Nat :=
  (k / 5) + 5 * ((2 * (k % 5) + 3 * (k / 5)) % 5)

/-- Pi output, built exactly as the source's loop of 25 comb assignments
`pi_out[dest].eq(rho_out[src])` (y outer, x inner, i.e. src = 0..24). -/
def pi_out (R : Nat → Nat) : Nat → Nat :=
  (List.range 25).foldl (fun acc k => Function.update acc (pi_dest k) (R k)) (fun _ => 0)

/-- Chi output `A'[x,y] = A[x,y] ^ (~A[x+1,y] & A[x+2,y])`; `~` is the 64-bit
complement of the 64-bit signal. -/
def chi_out (P : Nat → Nat) (k : Nat) : Nat :=
  P k ^^^ (((2 ^ 64 - 1) ^^^ P ((k % 5 + 1) % 5 + 5 * (k / 5))) &&& P ((k % 5 + 2) % 5 + 5 * (k / 5)))

/-- Iota output: the round constant is XORed into lane 0 only; all other lanes
pass through unchanged. -/
def iota_out (round_const : Nat) (C : Nat → Nat) (k : Nat) : Nat :=
  if k = 0 then C 0 ^^^ round_const else C k

/-- One invocation of the permutation core (src/keccak_core.py KeccakCore):
`iota ∘ chi ∘ pi ∘ rho ∘ theta` with the given round constant. -/
def coreRound (round_const : Nat) (A : Nat → Nat) : Nat → Nat :=
  iota_out round_const (fun k => chi_out (pi_out (fun j => rho_out (fun m => theta_out A m) j)) k)

end KeccakHw

namespace Sha3Ref

/-- Round constants from src/VerificationTest/sha3_function.py. -/
def KECCAK_ROUND_CONSTANTS : List Nat := [
  0x0000000000000001, 0x0000000000008082, 0x800000000000808a,
  0x8000000080008000, 0x000000000000808b, 0x0000000080000001,
  0x8000000080008081, 0x8000000000008009, 0x000000000000008a,
  0x0000000000000088, 0x0000000080008009, 0x000000008000000a,
  0x000000008000808b, 0x800000000000008b, 0x8000000000008089,
  0x8000000000008003, 0x8000000000008002, 0x8000000000000080,
  0x000000000000800a, 0x800000008000000a, 0x8000000080008081,
  0x8000000000008080, 0x0000000080000001, 0x8000000080008008]

/-- 64-bit rotate left from sha3_function.py: masked with `0xFFFFFFFFFFFFFFFF`. -/
def rol64 (x y : Nat) : Nat :=
  ((x <<< y) ||| (x >>> (64 - y))) &&& 0xFFFFFFFFFFFFFFFF

/-- Theta parity `bc[i]` from keccakf_sw. -/
def bc (state : Nat → Nat) (i : Nat) : Nat :=
  state i ^^^ state (i + 5) ^^^ state (i + 10) ^^^ state (i + 15) ^^^ state (i + 20)

/-- Theta step of keccakf_sw: `state[j+i] ^= bc[(i+4)%5] ^ rol64(bc[(i+1)%5], 1)`
where `i = k % 5` for flat index `k = j + i`. -/
def thetaStep (state : Nat → Nat) (k : Nat) : Nat :=
  state k ^^^ (bc state ((k % 5 + 4) % 5) ^^^ rol64 (bc state ((k % 5 + 1) % 5)) 1)

/-- Destination indices of the in-place rho-pi walk of keccakf_sw. -/
def PI_J : List Nat :=
  [10, 7, 11, 17, 18, 3, 5, 16, 8, 21, 24, 4, 15, 23, 19, 13, 12, 2, 20, 14, 22, 9, 6, 1]

/-- Rotation amounts of the in-place rho-pi walk of keccakf_sw. -/
def PI_ROTC : List Nat :=
  [1, 3, 6, 10, 15, 21, 28, 36, 45, 55, 2, 14, 27, 41, 56, 8, 25, 43, 62, 18, 39, 61, 20, 44]

/-- One step of the rho-pi walk: write `rol64 t rotc` to index `j`, and carry
the overwritten lane (`bc0`) as the next `t`. -/
def rhoPiStep (p : (Nat → Nat) × Nat) (jr : Nat × Nat) : (Nat → Nat) × Nat :=
  (Function.update p.1 jr.1 (rol64 p.2 jr.2), p.1 jr.1)

/-- The complete in-place rho-pi walk of keccakf_sw, starting with `t = state[1]`. -/
def rhoPi (state : Nat → Nat) : Nat → Nat :=
  ((PI_J.zip PI_ROTC).foldl rhoPiStep (state, state 1)).1

/-- Chi step of keccakf_sw: `state[j+i] ^= (~bc[(i+1)%5]) & bc[(i+2)%5]` on each
row `j`; Python's `~` restricted to the 64-bit operands is the 64-bit complement. -/
def chiStep (state : Nat → Nat) (k : Nat) : Nat :=
  state k ^^^ (((2 ^ 64 - 1) ^^^ state ((k % 5 + 1) % 5 + 5 * (k / 5))) &&&
    state ((k % 5 + 2) % 5 + 5 * (k / 5)))

/-- Iota step of keccakf_sw for round `round_idx`. -/
def iotaStep (round_idx : Nat) (state : Nat → Nat) (k : Nat) : Nat :=
  if k = 0 then state 0 ^^^ KECCAK_ROUND_CONSTANTS.getD round_idx 0 else state k

/-- One round of keccakf_sw (reference software Keccak-f[1600] round). -/
def swRound (round_idx : Nat) (state : Nat → Nat) : Nat → Nat :=
  iotaStep round_idx (fun k => chiStep (rhoPi (fun m => thetaStep state m)) k)

end Sha3Ref

theorem swRol_eq_rol64 (v s : Nat) (h : s ≠ 0) : Sha3Ref.rol64 v s = Utils.rol64 v s := by
  unfold Sha3Ref.rol64 Utils.rol64
  rw [if_neg h]
  have : (0xFFFFFFFFFFFFFFFF : Nat) = 2 ^ 64 - 1 := by norm_num
  rw [this, Nat.and_pow_two_sub_one_eq_mod]

theorem thetaStep_eq_theta_out (A : Nat → Nat) (k : Nat) :
    Sha3Ref.thetaStep A k = KeccakHw.theta_out A k := by
  unfold Sha3Ref.thetaStep KeccakHw.theta_out KeccakHw.theta_d
  rw [swRol_eq_rol64 _ _ (by decide)]
  rfl

theorem rhoPi_eq_pi_rho (B : Nat → Nat) (k : Nat) (hk : k < 25) :
    Sha3Ref.rhoPi B k = KeccakHw.pi_out (fun j => KeccakHw.rho_out B j) k := by
  interval_cases k <;>
    first
      | rfl
      | exact swRol_eq_rol64 _ _ (by decide)

theorem chiLayer_eq (A : Nat → Nat) (k : Nat) (hk : k < 25) :
    Sha3Ref.chiStep (Sha3Ref.rhoPi (fun m => Sha3Ref.thetaStep A m)) k
      = KeccakHw.chi_out (KeccakHw.pi_out
          (fun j => KeccakHw.rho_out (fun m => KeccakHw.theta_out A m) j)) k := by
  have hB : (fun m => Sha3Ref.thetaStep A m) = (fun m => KeccakHw.theta_out A m) :=
    funext (thetaStep_eq_theta_out A)
  unfold Sha3Ref.chiStep KeccakHw.chi_out
  rw [hB]
  rw [rhoPi_eq_pi_rho _ k hk]
  rw [rhoPi_eq_pi_rho _ ((k % 5 + 1) % 5 + 5 * (k / 5)) (by omega)]
  rw [rhoPi_eq_pi_rho _ ((k % 5 + 2) % 5 + 5 * (k / 5)) (by omega)]

theorem constants_eq : Sha3Ref.KECCAK_ROUND_CONSTANTS = Utils.KECCAK_ROUND_CONSTANTS := rfl

/-- C1: for every 25-lane 64-bit state and every round index in 0..23, one
invocation of the permutation core (theta, rho with the 25-entry offset table,
pi with `(x,y) ↦ (y, (2x+3y) mod 5)`, chi, and iota XORing the round constant
into lane [0,0] only) computes exactly the Keccak-f[1600] round: its output
equals, lane by lane, the repository's reference software Keccak round
(`keccakf_sw` of sha3_function.py) on the same state. -/
theorem C1_permutation_core_round (r : Fin 24) (A : Nat → Nat) (i : Fin 25) :
    KeccakHw.coreRound (Utils.KECCAK_ROUND_CONSTANTS.getD r.val 0) A i.val
      = Sha3Ref.swRound r.val A i.val := by
  simp only [KeccakHw.coreRound, Sha3Ref.swRound, KeccakHw.iota_out, Sha3Ref.iotaStep,
    constants_eq]
  have h0 := chiLayer_eq A 0 (by omega)
  have hi := chiLayer_eq A i.val i.isLt
  split
  · rw [h0]
  · rw [hi]
namespace ClzHw

/-- Sum of the powers `2^i` for `i < n` with `f i = true`: the value of a bus of
`n` wires whose bit `i` is driven by `f i`.  Used to model the comb-assigned
`reversed_input` bus of clz_module.py. -/
def bitsToNat (n : Nat) (f : Nat → Bool) : Nat :=
  (List.range n).foldl (fun acc i => acc + (if f i then 2 ^ i else 0)) 0

/-- Byte-wise bit reversal from clz_module.py (PART 1): bit `base + bit_idx` of
the reversed bus is driven by input bit `base + (7 - bit_idx)`, for each of the
32 bytes (`base = 8 * byte_idx`). -/
def reversed_input (x : Nat) : Nat :=
  bitsToNat 256 (fun dst => x.testBit (8 * (dst / 8) + (7 - dst % 8)))

/-- The binary-search priority encoder of clz_module.py (PART 2): `n` remaining
stages; each stage checks whether the lower `block_size = 2^(n-1)` bits of the
current data are all zero, and either descends into the upper half (adding
`block_size` to the offset) or into the lower half. -/
def encoder : Nat → Nat → Nat → Nat
  | 0, _, offset => offset
  | n + 1, data, offset =>
      if data % 2 ^ 2 ^ n = 0 then encoder n (data / 2 ^ 2 ^ n) (offset + 2 ^ n)
      else encoder n (data % 2 ^ 2 ^ n) offset

/-- Output of the CountLeadingZeros module (width 256): the encoder offset,
overridden with 256 (PART 3) when the raw input is entirely zero. -/
def clz_out (x : Nat) : Nat :=
  if x = 0 then 256 else encoder 8 (reversed_input x) 0

end ClzHw

namespace Spec

/-- The `p`-th most significant bit of a 256-bit digest under the big-endian
interpretation of the spec: position 0 is bit 7 of byte 0 (= bit 255, the most
significant), position 255 is bit 0 of byte 31. -/
def bigBit (x p : Nat) : Bool :=
  x.testBit (8 * (p / 8) + (7 - p % 8))

end Spec

theorem bitsToNat_succ (n : Nat) (f : Nat → Bool) :
    ClzHw.bitsToNat (n + 1) f = ClzHw.bitsToNat n f + (if f n then 2 ^ n else 0) := by
  unfold ClzHw.bitsToNat
  rw [List.range_succ, List.foldl_append]
  rfl

theorem bitsToNat_lt (n : Nat) (f : Nat → Bool) : ClzHw.bitsToNat n f < 2 ^ n := by
  induction n with
  | zero => simp [ClzHw.bitsToNat]
  | succ n ih =>
      rw [bitsToNat_succ]
      have : (if f n then 2 ^ n else 0) ≤ 2 ^ n := by split <;> simp
      have h2 : 2 ^ (n + 1) = 2 ^ n + 2 ^ n := by ring
      omega

theorem bitsToNat_testBit (n : Nat) (f : Nat → Bool) (p : Nat) :
    (ClzHw.bitsToNat n f).testBit p = (decide (p < n) && f p) := by
  induction n generalizing p with
  | zero => simp [ClzHw.bitsToNat]
  | succ n ih =>
      rw [bitsToNat_succ]
      rcases Nat.lt_trichotomy p n with hlt | heq | hgt
      · rw [Nat.add_comm]
        have hb : ClzHw.bitsToNat n f < 2 ^ n := bitsToNat_lt n f
        have : (if f n then 2 ^ n else 0) = 2 ^ n * (if f n then 1 else 0) := by
          split <;> simp
        rw [this, Nat.testBit_mul_pow_two_add _ hb p, if_pos hlt, ih]
        simp [hlt, Nat.lt_succ_of_lt hlt]
      · subst heq
        rw [Nat.add_comm]
        have hb : ClzHw.bitsToNat p f < 2 ^ p := bitsToNat_lt p f
        have : (if f p then 2 ^ p else 0) = 2 ^ p * (if f p then 1 else 0) := by
          split <;> simp
        rw [this, Nat.testBit_mul_pow_two_add _ hb p, if_neg (Nat.lt_irrefl p)]
        simp [Nat.lt_succ_self]
        split <;> simp_all
      · have h1 : ¬ p < n := by omega
        have h2 : ¬ p < n + 1 := by omega
        have hval : ClzHw.bitsToNat n f + (if f n then 2 ^ n else 0) < 2 ^ (n + 1) := by
          have := bitsToNat_lt n f
          have : (if f n then 2 ^ n else 0) ≤ 2 ^ n := by split <;> simp
          have h3 : 2 ^ (n + 1) = 2 ^ n + 2 ^ n := by ring
          have := bitsToNat_lt n f
          omega
        rw [Nat.testBit_lt_two_pow (Nat.lt_of_lt_of_le hval (Nat.pow_le_pow_right (by omega) hgt))]
        simp [h2]
theorem encoder_zero (n offset : Nat) : ClzHw.encoder n 0 offset = offset + (2 ^ n - 1) := by
  induction n generalizing offset with
  | zero => simp [ClzHw.encoder]
  | succ n ih =>
      show ClzHw.encoder (n + 1) 0 offset = _
      unfold ClzHw.encoder
      rw [Nat.zero_mod, Nat.zero_div, if_pos rfl, ih]
      have h1 : 1 ≤ 2 ^ n := Nat.one_le_two_pow
      have h2 : 2 ^ (n + 1) = 2 ^ n + 2 ^ n := by ring
      omega

theorem testBit_div_pow (x m j : Nat) : (x / 2 ^ m).testBit j = x.testBit (m + j) := by
  rw [← Nat.shiftRight_eq_div_pow, Nat.testBit_shiftRight]

theorem encoder_lsb (n : Nat) : ∀ data offset k, data < 2 ^ 2 ^ n →
    data.testBit k = true → (∀ j, j < k → data.testBit j = false) →
    ClzHw.encoder n data offset = offset + k := by
  induction n with
  | zero =>
      intro data offset k hlt hk hmin
      interval_cases data
      · simp at hk
      · have hkz : k = 0 := by
          by_contra hne
          have h1 : (1 : Nat) < 2 ^ k := by
            calc (1:Nat) < 2 ^ 1 := by norm_num
            _ ≤ 2 ^ k := Nat.pow_le_pow_right (by omega) (by omega)
          rw [Nat.testBit_lt_two_pow h1] at hk
          exact Bool.false_ne_true hk
        subst hkz
        simp [ClzHw.encoder]
  | succ n ih =>
      intro data offset k hlt hk hmin
      unfold ClzHw.encoder
      by_cases hlow : data % 2 ^ 2 ^ n = 0
      · rw [if_pos hlow]
        have hkge : 2 ^ n ≤ k := by
          by_contra hklt
          have hklt2 : k < 2 ^ n := Nat.lt_of_not_le hklt
          have h0 : (data % 2 ^ 2 ^ n).testBit k = false := by
            rw [hlow]; exact Nat.zero_testBit k
          rw [Nat.testBit_mod_two_pow, hk] at h0
          simp [hklt2] at h0
        have hhighlt : data / 2 ^ 2 ^ n < 2 ^ 2 ^ n := by
          apply Nat.div_lt_of_lt_mul
          calc data < 2 ^ 2 ^ (n + 1) := hlt
          _ = 2 ^ 2 ^ n * 2 ^ 2 ^ n := by
            rw [← Nat.pow_add]
            congr 1
            ring
        have hhighbit : (data / 2 ^ 2 ^ n).testBit (k - 2 ^ n) = true := by
          rw [testBit_div_pow]
          have : 2 ^ n + (k - 2 ^ n) = k := by omega
          rw [this]; exact hk
        have hhighmin : ∀ j, j < k - 2 ^ n → (data / 2 ^ 2 ^ n).testBit j = false := by
          intro j hj
          rw [testBit_div_pow]
          exact hmin _ (by omega)
        rw [ih _ _ _ hhighlt hhighbit hhighmin]
        omega
      · rw [if_neg hlow]
        have hklt : k < 2 ^ n := by
          rcases Nat.ne_zero_implies_bit_true hlow with ⟨j, hj⟩
          rw [Nat.testBit_mod_two_pow] at hj
          simp at hj
          by_contra hge
          have := hmin j (by omega)
          rw [this] at hj
          exact Bool.false_ne_true hj.2
        have hlowlt : data % 2 ^ 2 ^ n < 2 ^ 2 ^ n := Nat.mod_lt _ (Nat.two_pow_pos _)
        have hlowbit : (data % 2 ^ 2 ^ n).testBit k = true := by
          rw [Nat.testBit_mod_two_pow]
          simp [hklt, hk]
        have hlowmin : ∀ j, j < k → (data % 2 ^ 2 ^ n).testBit j = false := by
          intro j hj
          rw [Nat.testBit_mod_two_pow]
          simp [hmin j hj]
        exact ih _ _ _ hlowlt hlowbit hlowmin
theorem reversed_testBit (x p : Nat) :
    (ClzHw.reversed_input x).testBit p = (decide (p < 256) && Spec.bigBit x p) :=
  bitsToNat_testBit 256 _ p

theorem reversed_lt (x : Nat) : ClzHw.reversed_input x < 2 ^ 256 :=
  bitsToNat_lt 256 _

theorem bigBit_of_testBit (x j : Nat) (hj : x.testBit j = true) :
    Spec.bigBit x (8 * (j / 8) + (7 - j % 8)) = true := by
  unfold Spec.bigBit
  have h1 : (8 * (j / 8) + (7 - j % 8)) / 8 = j / 8 := by omega
  have h2 : (8 * (j / 8) + (7 - j % 8)) % 8 = 7 - j % 8 := by omega
  rw [h1, h2]
  have h3 : 8 * (j / 8) + (7 - (7 - j % 8)) = j := by omega
  rw [h3]
  exact hj

/-- C3: for every 256-bit digest input, the leading-zero evaluator returns the
number of leading zero bits under the big-endian interpretation in which bit 7
of byte 0 is most significant: the output never exceeds 256 (never an error),
an all-zero input yields 256, and an input whose first `k` big-endian bits are
zero followed by a one bit yields exactly `k` — despite the implementation
reversing bits within each byte and then running a binary-search trailing-zero
priority encoder on the little-endian layout. -/
theorem C3_clz_correct (x : Nat) (hx : x < 2 ^ 256) :
    ClzHw.clz_out x ≤ 256 ∧ (x = 0 → ClzHw.clz_out x = 256) ∧
    (∀ k, k < 256 → (∀ p, p < k → Spec.bigBit x p = false) → Spec.bigBit x k = true →
      ClzHw.clz_out x = k) := by
  have h256 : (2 : Nat) ^ 256 = 2 ^ 2 ^ 8 := by norm_num
  by_cases hz : x = 0
  · subst hz
    refine ⟨by simp [ClzHw.clz_out], fun _ => by simp [ClzHw.clz_out], ?_⟩
    intro k hk hmin hbit
    rw [Spec.bigBit] at hbit
    simp at hbit
  · have hcl : ClzHw.clz_out x = ClzHw.encoder 8 (ClzHw.reversed_input x) 0 := by
      rw [ClzHw.clz_out, if_neg hz]
    constructor
    · -- output bounded by 256
      rcases Nat.ne_zero_implies_bit_true hz with ⟨j, hj⟩
      have hjlt : j < 256 := by
        have := Nat.testBit_implies_ge hj
        by_contra hge
        have : (2:Nat) ^ 256 ≤ 2 ^ j := Nat.pow_le_pow_right (by omega) (by omega)
        omega
      have hp : (ClzHw.reversed_input x).testBit (8 * (j / 8) + (7 - j % 8)) = true := by
        rw [reversed_testBit]
        have : 8 * (j / 8) + (7 - j % 8) < 256 := by omega
        simp [this, bigBit_of_testBit x j hj]
      have hex : ∃ i, (ClzHw.reversed_input x).testBit i = true := ⟨_, hp⟩
      classical
      set k0 := Nat.find hex with hk0
      have hbit0 : (ClzHw.reversed_input x).testBit k0 = true := Nat.find_spec hex
      have hmin0 : ∀ j, j < k0 → (ClzHw.reversed_input x).testBit j = false := by
        intro j hjk
        have := Nat.find_min hex hjk
        simpa using this
      have hk0lt : k0 < 256 := by
        have := Nat.testBit_implies_ge hbit0
        have hrev := reversed_lt x
        by_contra hge
        have : (2:Nat) ^ 256 ≤ 2 ^ k0 := Nat.pow_le_pow_right (by omega) (by omega)
        omega
      rw [hcl, encoder_lsb 8 _ 0 k0 (by rw [← h256]; exact reversed_lt x) hbit0 hmin0]
      omega
    constructor
    · intro h; exact absurd h hz
    · intro k hk hmin hbit
      have hbitk : (ClzHw.reversed_input x).testBit k = true := by
        rw [reversed_testBit]; simp [hk, hbit]
      have hmink : ∀ j, j < k → (ClzHw.reversed_input x).testBit j = false := by
        intro j hj
        rw [reversed_testBit]
        simp [hmin j hj]
      rw [hcl, encoder_lsb 8 _ 0 k (by rw [← h256]; exact reversed_lt x) hbitk hmink]
      omega

/-- Witness for C3: the digest 1 (bit 0 of byte 0 set) has exactly 7 leading
zero bits big-endian, and the evaluator returns 7. -/
theorem C3_clz_correct_witness : (1 : Nat) < 2 ^ 256 ∧ ClzHw.clz_out 1 = 7 :=
  ⟨by norm_num, (C3_clz_correct 1 (by norm_num)).2.2 7 (by norm_num)
    (by decide) (by decide)⟩
namespace Datapath

/-- Dynamic block calculator of keccak_datapath_simd.py: a chain of 16
comparisons `input_length < (b+1)*136 → total_blocks = b+1`, with the final
Else giving `MAX_BLOCKS = 16`.  The target `total_blocks` is `Signal(max=16)`,
a 4-bit register holding 0..15, so every assigned value is truncated mod 16:
the `b = 15` branch and the Else assign 16, which wraps to 0. -/
def total_blocks (input_length : Nat) : Nat :=
  (if input_length < 136 then 1
  else if input_length < 272 then 2
  else if input_length < 408 then 3
  else if input_length < 544 then 4
  else if input_length < 680 then 5
  else if input_length < 816 then 6
  else if input_length < 952 then 7
  else if input_length < 1088 then 8
  else if input_length < 1224 then 9
  else if input_length < 1360 then 10
  else if input_length < 1496 then 11
  else if input_length < 1632 then 12
  else if input_length < 1768 then 13
  else if input_length < 1904 then 14
  else if input_length < 2040 then 15
  else if input_length < 2176 then 16
  else 16) % 16

/-- `clear_masks` LUT: mask that KEEPS the data bytes below the pad offset. -/
def clear_masks : List Nat := [
  0x0000000000000000, 0x00000000000000FF, 0x000000000000FFFF, 0x0000000000FFFFFF,
  0x00000000FFFFFFFF, 0x000000FFFFFFFFFF, 0x0000FFFFFFFFFFFF, 0x00FFFFFFFFFFFFFF]

/-- `set_06_masks` LUT: the 0x06 pad byte at each of the 8 byte offsets. -/
def set_06_masks : List Nat := [
  0x0000000000000006, 0x0000000000000600, 0x0000000000060000, 0x0000000006000000,
  0x0000000600000000, 0x0000060000000000, 0x0006000000000000, 0x0600000000000000]

/-- JIT padding classification for one 64-bit word of the current block
(keccak_datapath_simd.py, LUT PADDING LOGIC): word `i` of the block at
`block_addr`, with `raw_word` its registered raw data.  Case A: pad-start and
message-end collide in this word; Case B: pad-start; Case C: message-end;
Case D: zero fill after the pad-start word; Case E: plain data.
`(total_blocks * 17) - 1` is a signed Migen expression (its range includes -1),
so it is modelled in `Int`: when the wrapped `total` is 0 it equals -1 and the
message-end comparison can never hold. -/
def word_out (input_length block_addr total i raw_word : Nat) : Nat :=
  let pad_word_global_idx := input_length >>> 3
  let pad_byte_in_word := input_length % 8
  let pad_clear_mask := clear_masks.getD pad_byte_in_word 0
  let pad_set_06 := set_06_masks.getD pad_byte_in_word 0
  let pad_set_80 : Nat := 0x8000000000000000
  let last_word_of_message_idx : Int := (total : Int) * 17 - 1
  let global_word_idx := block_addr * 17 + i
  if global_word_idx = pad_word_global_idx ∧
      (global_word_idx : Int) = last_word_of_message_idx then
    (raw_word &&& pad_clear_mask) ||| pad_set_06 ||| pad_set_80
  else if global_word_idx = pad_word_global_idx then
    (raw_word &&& pad_clear_mask) ||| pad_set_06
  else if (global_word_idx : Int) = last_word_of_message_idx then
    pad_set_80
  else if pad_word_global_idx < global_word_idx then 0
  else raw_word

/-- The padded 1088-bit rate slice: concatenation (`Cat`) of the 17 padded
words of the current block; word `i` occupies bits `64*i .. 64*i+63`. -/
def current_block_padded (input_length block_addr total raw_block : Nat) : Nat :=
  (List.range 17).foldl (fun acc i =>
    acc + word_out input_length block_addr total i ((raw_block >>> (64 * i)) % 2 ^ 64)
            % 2 ^ 64 * 2 ^ (64 * i)) 0

/-- Nonce mask (NonceInjector): active only for block 0; the 240-bit masked
nonce is placed at bit `NONCE_START_BIT = 32`
(`Cat(Constant(0, 32), masked_nonce, Constant(0, 1328))`). -/
def nonce_mask (block_addr nonce : Nat) : Nat :=
  if block_addr = 0 then (nonce &&& (2 ^ 240 - 1)) <<< 32 else 0

/-- Lane `i` of a 1600-bit state value (`Cat` order: lane i at bits 64i..). -/
def lane64 (s i : Nat) : Nat := (s >>> (64 * i)) % 2 ^ 64

/-- Reassemble 25 64-bit lanes into a 1600-bit state value. -/
def combine25 (f : Nat → Nat) : Nat :=
  (List.range 25).foldl (fun acc i => acc + f i % 2 ^ 64 * 2 ^ (64 * i)) 0

/-- One PERMUTE cycle on a 1600-bit state register: feed the lanes to the
KeccakCore and register `Cat(*iota_out)`. -/
def permute1600 (round_const s : Nat) : Nat :=
  combine25 (KeccakHw.coreRound round_const (fun i => lane64 s i))

/-- FSM states of the SearchController (keccak_datapath_simd.py). -/
inductive FsmState where
  | IDLE
  | INIT_HASH
  | ABSORB
  | PERMUTE
  | CHECK_RESULT
  | DONE
deriving DecidableEq

/-- Module inputs: control bits and configuration signals.  Widths: header_data
1088, input_length 32, target_clz 9, timeout_limit 32, attempt_limit 64. -/
structure MinerInput where
  start : Bool
  stop : Bool
  header_data : Nat
  input_length : Nat
  target_clz : Nat
  timeout_limit : Nat
  attempt_limit : Nat
deriving DecidableEq

/-- The registers of the datapath.  `completion_status` is a 2-bit signal
(`Signal(2)`), so every value written to it is truncated mod 4. -/
structure Config where
  fsm : FsmState
  nonce_0 : Nat
  nonce_1 : Nat
  timeout_counter : Nat
  attempts_counter : Nat
  completion_status : Nat
  round_index : Nat
  block_addr : Nat
  loop_counter : Nat
  state_0 : Nat
  state_1 : Nat
  current_raw_block : Nat
  nonce_result : Nat
  debug_block0_data : Nat
deriving DecidableEq

/-- Reset values of all registers (`Signal(..., reset=...)`): `nonce_0` resets
to 1, everything else to 0, the FSM to IDLE. -/
def resetConfig : Config where
  fsm := .IDLE
  nonce_0 := 1
  nonce_1 := 0
  timeout_counter := 0
  attempts_counter := 0
  completion_status := 0
  round_index := 0
  block_addr := 0
  loop_counter := 0
  state_0 := 0
  state_1 := 0
  current_raw_block := 0
  nonce_result := 0
  debug_block0_data := 0

/-- The comb `running` signal: driven 1 in INIT_HASH/ABSORB/PERMUTE/CHECK_RESULT
and 0 in IDLE/DONE. -/
def running (c : Config) : Bool :=
  match c.fsm with
  | .IDLE => false
  | .DONE => false
  | _ => true

/-- One clock cycle of the datapath.  The first lets are the input ports
truncated to their signal widths; `current_raw_block` registers `header_data`
every cycle, and `timeout_counter` increments every cycle when `running`. -/
def step (inp : MinerInput) (c : Config) : Config :=
  let hdr := inp.header_data % 2 ^ 1088
  let len := inp.input_length % 2 ^ 32
  let tclz := inp.target_clz % 2 ^ 9
  let tlimit := inp.timeout_limit % 2 ^ 32
  let alimit := inp.attempt_limit % 2 ^ 64
  let total := total_blocks len
  let tcnt := if running c then (c.timeout_counter + 1) % 2 ^ 32 else c.timeout_counter
  let c0 : Config := { c with current_raw_block := hdr, timeout_counter := tcnt }
  match c.fsm with
  | .IDLE =>
      if inp.start then
        { c0 with block_addr := 0, completion_status := 0, timeout_counter := 0,
                  attempts_counter := 0, nonce_0 := 1, nonce_1 := 0, fsm := .INIT_HASH }
      else
        { c0 with block_addr := 0 }
  | .INIT_HASH =>
      { c0 with state_0 := 0, state_1 := 0, loop_counter := 0, fsm := .ABSORB }
  | .ABSORB =>
      let padded := current_block_padded len c.block_addr total c.current_raw_block
      let m0 := nonce_mask c.block_addr c.nonce_0
      let m1 := nonce_mask c.block_addr c.nonce_1
      { c0 with state_0 := c.state_0 ^^^ padded ^^^ m0,
                state_1 := c.state_1 ^^^ padded ^^^ m1,
                round_index := 0,
                debug_block0_data := (padded ^^^ m0) % 2 ^ 512,
                fsm := .PERMUTE }
  | .PERMUTE =>
      let rc := Utils.KECCAK_ROUND_CONSTANTS.getD c.round_index 0
      let s0 := permute1600 rc c.state_0
      let s1 := permute1600 rc c.state_1
      let ba := if c.round_index = 0 ∧ c.block_addr < total - 1 then c.block_addr + 1
                else c.block_addr
      if c.round_index = 23 then
        if c.loop_counter + 1 < total then
          { c0 with state_0 := s0, state_1 := s1, block_addr := ba,
                    loop_counter := c.loop_counter + 1, fsm := .ABSORB }
        else
          { c0 with state_0 := s0, state_1 := s1, block_addr := ba,
                    fsm := .CHECK_RESULT }
      else
        { c0 with state_0 := s0, state_1 := s1, block_addr := ba,
                  round_index := (c.round_index + 1) % 2 ^ 5 }
  | .CHECK_RESULT =>
      let clz0 := ClzHw.clz_out (c.state_0 % 2 ^ 256)
      let clz1 := ClzHw.clz_out (c.state_1 % 2 ^ 256)
      if tlimit ≠ 0 ∧ tlimit ≤ c.timeout_counter then
        { c0 with completion_status := 3, fsm := .DONE }
      else if alimit ≠ 0 ∧ alimit ≤ c.attempts_counter then
        -- NextValue(completion_status, 4) on the 2-bit status register
        { c0 with completion_status := 4 % 4, fsm := .DONE }
      else if tclz ≤ clz0 then
        { c0 with nonce_result := hdr >>> 16 % 2 ^ 16 + c.nonce_0 % 2 ^ 240 * 2 ^ 16,
                  completion_status := 1, fsm := .DONE }
      else if tclz ≤ clz1 then
        { c0 with nonce_result := hdr >>> 16 % 2 ^ 16 + c.nonce_1 % 2 ^ 240 * 2 ^ 16,
                  completion_status := 2, fsm := .DONE }
      else if inp.stop then
        { c0 with fsm := .IDLE }
      else
        { c0 with nonce_0 := (c.nonce_0 + 1) % 2 ^ 240,
                  nonce_1 := c.state_0 % 2 ^ 240,
                  attempts_counter := (c.attempts_counter + 2) % 2 ^ 64,
                  block_addr := 0, fsm := .INIT_HASH }
  | .DONE =>
      if inp.start then c0 else { c0 with fsm := .IDLE }

/-- The trace of configurations after 0..n cycles with constant inputs, most
recent first (`cfgTrace inp n` has `n+1` entries; its head is the state after
`n` cycles from reset). -/
def cfgTrace (inp : MinerInput) : Nat → List Config
  | 0 => [resetConfig]
  | n + 1 =>
      match cfgTrace inp n with
      | [] => []
      | c :: rest => step inp c :: c :: rest

/-- Configuration after `n` cycles from reset with constant inputs. -/
def runN (inp : MinerInput) (n : Nat) : Config :=
  (cfgTrace inp n).headD resetConfig

end Datapath
/-- C7: the claim that the computed total block count equals
`ceil((input_length+1)/136)` capped at the maximum block count 16 holds for
every input_length below 2040; but `total_blocks` is a 4-bit `Signal(max=16)`
and the value 16 assigned by the `b = 15` branch and the final Else wraps to 0,
so for the accepted lengths 2040..2175 the code computes 0 where the claim
(and the clear intent of the `Else` assigning MAX_BLOCKS) says 16 — a code
bug, evaluated here at the failing inputs 2040 and 2175. -/
theorem C7_total_blocks :
    (∀ len : Fin 2040,
        Datapath.total_blocks len.val = min ((len.val + 1 + 135) / 136) 16) ∧
    Datapath.total_blocks 2040 = 0 ∧
    Datapath.total_blocks 2175 = 0 ∧
    min ((2040 + 1 + 135) / 136) 16 = 16 ∧ min ((2175 + 1 + 135) / 136) 16 = 16 := by
  refine ⟨?_, by decide, by decide, by decide, by decide⟩
  intro len
  have hlt : len.val < 2040 := len.isLt
  unfold Datapath.total_blocks
  by_cases h0 : len.val < 136
  · rw [if_pos h0]
    omega
  rw [if_neg h0]
  by_cases h1 : len.val < 272
  · rw [if_pos h1]
    omega
  rw [if_neg h1]
  by_cases h2 : len.val < 408
  · rw [if_pos h2]
    omega
  rw [if_neg h2]
  by_cases h3 : len.val < 544
  · rw [if_pos h3]
    omega
  rw [if_neg h3]
  by_cases h4 : len.val < 680
  · rw [if_pos h4]
    omega
  rw [if_neg h4]
  by_cases h5 : len.val < 816
  · rw [if_pos h5]
    omega
  rw [if_neg h5]
  by_cases h6 : len.val < 952
  · rw [if_pos h6]
    omega
  rw [if_neg h6]
  by_cases h7 : len.val < 1088
  · rw [if_pos h7]
    omega
  rw [if_neg h7]
  by_cases h8 : len.val < 1224
  · rw [if_pos h8]
    omega
  rw [if_neg h8]
  by_cases h9 : len.val < 1360
  · rw [if_pos h9]
    omega
  rw [if_neg h9]
  by_cases h10 : len.val < 1496
  · rw [if_pos h10]
    omega
  rw [if_neg h10]
  by_cases h11 : len.val < 1632
  · rw [if_pos h11]
    omega
  rw [if_neg h11]
  by_cases h12 : len.val < 1768
  · rw [if_pos h12]
    omega
  rw [if_neg h12]
  by_cases h13 : len.val < 1904
  · rw [if_pos h13]
    omega
  rw [if_neg h13]
  by_cases h14 : len.val < 2040
  · rw [if_pos h14]
    omega
  rw [if_neg h14]
  exact absurd hlt h14
namespace Datapath

/-- Condition of the highest-priority CHECK_RESULT branch: the timeout limit is
enabled (nonzero) and the cycle counter has reached it. -/
abbrev timeoutHit (inp : MinerInput) (c : Config) : Prop :=
  inp.timeout_limit % 2 ^ 32 ≠ 0 ∧ inp.timeout_limit % 2 ^ 32 ≤ c.timeout_counter

/-- Condition of the second CHECK_RESULT branch: the attempt limit is enabled
(nonzero) and the attempt counter has reached it. -/
abbrev attemptHit (inp : MinerInput) (c : Config) : Prop :=
  inp.attempt_limit % 2 ^ 64 ≠ 0 ∧ inp.attempt_limit % 2 ^ 64 ≤ c.attempts_counter

/-- Lane A qualifies: the CLZ of its 256-bit digest meets the target. -/
abbrev lane0Qualifies (inp : MinerInput) (c : Config) : Prop :=
  inp.target_clz % 2 ^ 9 ≤ ClzHw.clz_out (c.state_0 % 2 ^ 256)

/-- Lane B qualifies: the CLZ of its 256-bit digest meets the target. -/
abbrev lane1Qualifies (inp : MinerInput) (c : Config) : Prop :=
  inp.target_clz % 2 ^ 9 ≤ ClzHw.clz_out (c.state_1 % 2 ^ 256)

/-- Agreement of two configurations on every register except lane B's nonce
and lane B's Keccak state. -/
def agreeExceptLane1 (c c2 : Config) : Prop :=
  c.fsm = c2.fsm ∧ c.nonce_0 = c2.nonce_0 ∧ c.timeout_counter = c2.timeout_counter ∧
  c.attempts_counter = c2.attempts_counter ∧ c.completion_status = c2.completion_status ∧
  c.round_index = c2.round_index ∧ c.block_addr = c2.block_addr ∧
  c.loop_counter = c2.loop_counter ∧ c.state_0 = c2.state_0 ∧
  c.current_raw_block = c2.current_raw_block ∧ c.nonce_result = c2.nonce_result ∧
  c.debug_block0_data = c2.debug_block0_data

end Datapath

open Datapath in
/-- C5: in every visit to CheckResult the checks apply in fixed priority order:
timeout limit first, then attempt limit, then lane A's digest, then lane B's
digest, then a pending stop request (returning to Idle without a result), and
otherwise the advance-and-loop branch; consequently, whenever both lanes
qualify in the same cycle, found-lane-A is latched. -/
theorem C5_check_result_priority (inp : MinerInput) (c : Config)
    (hfsm : c.fsm = .CHECK_RESULT) :
    (timeoutHit inp c →
        (step inp c).completion_status = 3 ∧ (step inp c).fsm = .DONE) ∧
    (¬ timeoutHit inp c → attemptHit inp c →
        (step inp c).fsm = .DONE ∧ (step inp c).completion_status ≠ 1 ∧
        (step inp c).completion_status ≠ 2) ∧
    (¬ timeoutHit inp c → ¬ attemptHit inp c → lane0Qualifies inp c →
        (step inp c).completion_status = 1 ∧ (step inp c).fsm = .DONE) ∧
    (¬ timeoutHit inp c → ¬ attemptHit inp c → ¬ lane0Qualifies inp c →
        lane1Qualifies inp c →
        (step inp c).completion_status = 2 ∧ (step inp c).fsm = .DONE) ∧
    (¬ timeoutHit inp c → ¬ attemptHit inp c → ¬ lane0Qualifies inp c →
        ¬ lane1Qualifies inp c → inp.stop = true →
        (step inp c).fsm = .IDLE ∧
        (step inp c).completion_status = c.completion_status ∧
        (step inp c).nonce_result = c.nonce_result) ∧
    (¬ timeoutHit inp c → ¬ attemptHit inp c → ¬ lane0Qualifies inp c →
        ¬ lane1Qualifies inp c → inp.stop = false →
        (step inp c).fsm = .INIT_HASH) ∧
    (¬ timeoutHit inp c → ¬ attemptHit inp c → lane0Qualifies inp c →
        lane1Qualifies inp c → (step inp c).completion_status = 1) := by
  refine ⟨fun hT => ?_, fun hT hA => ?_, fun hT hA h0 => ?_, fun hT hA h0 h1 => ?_,
    fun hT hA h0 h1 hs => ?_, fun hT hA h0 h1 hs => ?_, fun hT hA h0 _ => ?_⟩ <;>
    simp only [step, hfsm]
  · rw [if_pos hT]; exact ⟨rfl, rfl⟩
  · rw [if_neg hT, if_pos hA]; exact ⟨rfl, by simp, by simp⟩
  · rw [if_neg hT, if_neg hA, if_pos h0]; exact ⟨rfl, rfl⟩
  · rw [if_neg hT, if_neg hA, if_neg h0, if_pos h1]; exact ⟨rfl, rfl⟩
  · rw [if_neg hT, if_neg hA, if_neg h0, if_neg h1, hs, if_pos rfl]
    exact ⟨rfl, rfl, rfl⟩
  · rw [if_neg hT, if_neg hA, if_neg h0, if_neg h1, hs, if_neg (by decide)]
  · rw [if_neg hT, if_neg hA, if_pos h0]

/-- Witness for C5: a concrete CheckResult configuration with the timeout limit
reached latches completion status 3 and moves to DONE. -/
theorem C5_check_result_priority_witness :
    (Datapath.step
        { start := true, stop := false, header_data := 0, input_length := 0,
          target_clz := 0, timeout_limit := 2, attempt_limit := 0 }
        { Datapath.resetConfig with fsm := .CHECK_RESULT,
                                    timeout_counter := 26 }).completion_status = 3 := by
  exact (C5_check_result_priority _ _ rfl).1 (by constructor <;> decide) |>.1
theorem truncated_header_bits (h : Nat) :
    (h % 2 ^ 1088) >>> 16 % 2 ^ 16 = h >>> 16 % 2 ^ 16 := by
  rw [Nat.shiftRight_eq_div_pow, Nat.shiftRight_eq_div_pow]
  have h1 : (2 : Nat) ^ 1088 = 2 ^ 16 * 2 ^ 1072 := by norm_num
  rw [h1, Nat.mod_mul_right_div_self]
  rw [Nat.mod_mod_of_dvd _ (by norm_num : (2:Nat) ^ 16 ∣ 2 ^ 1072)]

theorem record_split (low n : Nat) (hlow : low < 2 ^ 16) :
    (low + n * 2 ^ 16) % 2 ^ 16 = low ∧ (low + n * 2 ^ 16) >>> 16 = n := by
  constructor
  · rw [Nat.add_mul_mod_self_right, Nat.mod_eq_of_lt hlow]
  · rw [Nat.shiftRight_eq_div_pow, Nat.add_mul_div_right _ _ (by norm_num : 0 < 2 ^ 16),
      Nat.div_eq_of_lt hlow, Nat.zero_add]

open Datapath in
/-- C4: whenever a lane qualifies at CheckResult, the latched result nonce is a
fixed-width record equal to the winning lane's nonce value concatenated (at bit
16) with the two header-bus bytes 2..3 copied unmodified, for every header,
input length and configuration reaching CheckResult. -/
theorem C4_result_nonce_record (inp : MinerInput) (c : Config)
    (hfsm : c.fsm = .CHECK_RESULT)
    (hT : ¬ timeoutHit inp c) (hA : ¬ attemptHit inp c)
    (hn0 : c.nonce_0 < 2 ^ 240) (hn1 : c.nonce_1 < 2 ^ 240) :
    (lane0Qualifies inp c →
        (step inp c).nonce_result % 2 ^ 16 = inp.header_data >>> 16 % 2 ^ 16 ∧
        (step inp c).nonce_result >>> 16 = c.nonce_0) ∧
    (¬ lane0Qualifies inp c → lane1Qualifies inp c →
        (step inp c).nonce_result % 2 ^ 16 = inp.header_data >>> 16 % 2 ^ 16 ∧
        (step inp c).nonce_result >>> 16 = c.nonce_1) := by
  have hlow : (inp.header_data % 2 ^ 1088) >>> 16 % 2 ^ 16 < 2 ^ 16 :=
    Nat.mod_lt _ (by norm_num)
  constructor
  · intro h0
    simp only [step, hfsm]
    rw [if_neg hT, if_neg hA, if_pos h0]
    have := record_split ((inp.header_data % 2 ^ 1088) >>> 16 % 2 ^ 16) (c.nonce_0 % 2 ^ 240) hlow
    refine ⟨?_, ?_⟩
    · show ((inp.header_data % 2 ^ 1088) >>> 16 % 2 ^ 16 + c.nonce_0 % 2 ^ 240 * 2 ^ 16)
        % 2 ^ 16 = _
      rw [this.1, truncated_header_bits]
    · show ((inp.header_data % 2 ^ 1088) >>> 16 % 2 ^ 16 + c.nonce_0 % 2 ^ 240 * 2 ^ 16)
        >>> 16 = _
      rw [this.2, Nat.mod_eq_of_lt hn0]
  · intro h0 h1
    simp only [step, hfsm]
    rw [if_neg hT, if_neg hA, if_neg h0, if_pos h1]
    have := record_split ((inp.header_data % 2 ^ 1088) >>> 16 % 2 ^ 16) (c.nonce_1 % 2 ^ 240) hlow
    refine ⟨?_, ?_⟩
    · show ((inp.header_data % 2 ^ 1088) >>> 16 % 2 ^ 16 + c.nonce_1 % 2 ^ 240 * 2 ^ 16)
        % 2 ^ 16 = _
      rw [this.1, truncated_header_bits]
    · show ((inp.header_data % 2 ^ 1088) >>> 16 % 2 ^ 16 + c.nonce_1 % 2 ^ 240 * 2 ^ 16)
        >>> 16 = _
      rw [this.2, Nat.mod_eq_of_lt hn1]

open Datapath in
/-- Witness for C4: a concrete qualifying CheckResult (zero digest, target 0)
latches bytes 2..3 of the header bus in the low 16 bits and lane A's nonce
above them. -/
theorem C4_result_nonce_record_witness :
    (Datapath.step
        { start := true, stop := false, header_data := 0xABCD0000, input_length := 0,
          target_clz := 0, timeout_limit := 0, attempt_limit := 0 }
        { Datapath.resetConfig with fsm := .CHECK_RESULT, nonce_0 := 7 }).nonce_result
        % 2 ^ 16 = 0xABCD ∧
    (Datapath.step
        { start := true, stop := false, header_data := 0xABCD0000, input_length := 0,
          target_clz := 0, timeout_limit := 0, attempt_limit := 0 }
        { Datapath.resetConfig with fsm := .CHECK_RESULT, nonce_0 := 7 }).nonce_result
        >>> 16 = 7 := by
  have h := (C4_result_nonce_record
    { start := true, stop := false, header_data := 0xABCD0000, input_length := 0,
      target_clz := 0, timeout_limit := 0, attempt_limit := 0 }
    { Datapath.resetConfig with fsm := .CHECK_RESULT, nonce_0 := 7 }
    rfl (by simp) (by simp) (by decide) (by decide)).1 (by decide)
  exact ⟨by rw [h.1]; decide, h.2⟩
open Datapath in
/-- C6: lane A's nonce starts at 1 on a start transition and increments by
exactly 1 on each unsuccessful attempt; lane B's nonce starts at 0 and on each
unsuccessful attempt is reseeded from the low 240 bits of lane A's
post-permutation state; on the same transition the attempt counter increases by
the number of lanes (2) and the block index resets to 0 before looping to
InitHash. -/
theorem C6_nonce_advancement (inp : MinerInput) (c : Config) :
    (c.fsm = .IDLE → inp.start = true →
        (step inp c).nonce_0 = 1 ∧ (step inp c).nonce_1 = 0) ∧
    (c.fsm = .CHECK_RESULT → ¬ timeoutHit inp c → ¬ attemptHit inp c →
     ¬ lane0Qualifies inp c → ¬ lane1Qualifies inp c → inp.stop = false →
     c.nonce_0 + 1 < 2 ^ 240 → c.attempts_counter + 2 < 2 ^ 64 →
        (step inp c).nonce_0 = c.nonce_0 + 1 ∧
        (step inp c).nonce_1 = c.state_0 % 2 ^ 240 ∧
        (step inp c).attempts_counter = c.attempts_counter + 2 ∧
        (step inp c).block_addr = 0 ∧
        (step inp c).fsm = .INIT_HASH) := by
  constructor
  · intro hfsm hstart
    simp only [step, hfsm, hstart]
    exact ⟨rfl, rfl⟩
  · intro hfsm hT hA h0 h1 hs hn ha
    simp only [step, hfsm]
    rw [if_neg hT, if_neg hA, if_neg h0, if_neg h1, hs, if_neg (by decide)]
    refine ⟨?_, rfl, ?_, rfl, rfl⟩
    · show (c.nonce_0 + 1) % 2 ^ 240 = _
      exact Nat.mod_eq_of_lt hn
    · show (c.attempts_counter + 2) % 2 ^ 64 = _
      exact Nat.mod_eq_of_lt ha

set_option maxRecDepth 40000 in
open Datapath in
/-- Witness for C6: from reset (Idle) with start asserted the nonces are
initialised to 1 and 0; from a concrete failing CheckResult (target 300
unreachable since every CLZ value is at most 256) lane A's nonce advances from
1 to 2, lane B's is reseeded from lane A's state low bits, the attempt counter
advances by 2 and the FSM loops to InitHash with block index 0. -/
theorem C6_nonce_advancement_witness :
    ((Datapath.step
        { start := true, stop := false, header_data := 0, input_length := 0,
          target_clz := 300, timeout_limit := 0, attempt_limit := 0 }
        Datapath.resetConfig).nonce_0 = 1 ∧
     (Datapath.step
        { start := true, stop := false, header_data := 0, input_length := 0,
          target_clz := 300, timeout_limit := 0, attempt_limit := 0 }
        Datapath.resetConfig).nonce_1 = 0) ∧
    ((Datapath.step
        { start := true, stop := false, header_data := 0, input_length := 0,
          target_clz := 300, timeout_limit := 0, attempt_limit := 0 }
        { Datapath.resetConfig with fsm := .CHECK_RESULT, state_0 := 5,
                                    state_1 := 6 }).nonce_0 = 2 ∧
     (Datapath.step
        { start := true, stop := false, header_data := 0, input_length := 0,
          target_clz := 300, timeout_limit := 0, attempt_limit := 0 }
        { Datapath.resetConfig with fsm := .CHECK_RESULT, state_0 := 5,
                                    state_1 := 6 }).nonce_1 = 5 % 2 ^ 240) := by
  constructor
  · exact (C6_nonce_advancement _ _).1 rfl rfl
  · have h := (C6_nonce_advancement
      { start := true, stop := false, header_data := 0, input_length := 0,
        target_clz := 300, timeout_limit := 0, attempt_limit := 0 }
      { Datapath.resetConfig with fsm := .CHECK_RESULT, state_0 := 5, state_1 := 6 }).2
      rfl (by decide) (by decide) (by decide) (by decide) rfl (by decide) (by decide)
    exact ⟨h.1, h.2.1⟩

open Datapath in
/-- C9: once a terminal status is latched the machine stays in Done with the
completion status and result fields unchanged while start is held, returns to
Idle exactly when the host clears start, and the start input is never consulted
in the running states (InitHash, Absorb, Permute, CheckResult), so re-asserting
start cannot restart an in-progress session. -/
theorem C9_done_handshake (inp : MinerInput) (c : Config) :
    (c.fsm = .DONE → inp.start = true →
        (step inp c).fsm = .DONE ∧
        (step inp c).completion_status = c.completion_status ∧
        (step inp c).nonce_result = c.nonce_result) ∧
    (c.fsm = .DONE → inp.start = false →
        (step inp c).fsm = .IDLE ∧
        (step inp c).completion_status = c.completion_status ∧
        (step inp c).nonce_result = c.nonce_result) ∧
    (∀ b : Bool, c.fsm ≠ .IDLE → c.fsm ≠ .DONE →
        step { inp with start := b } c = step inp c) := by
  refine ⟨?_, ?_, ?_⟩
  · intro hfsm hstart
    simp only [step, hfsm, hstart]
    exact ⟨rfl, rfl, rfl⟩
  · intro hfsm hstart
    simp only [step, hfsm, hstart]
    exact ⟨rfl, rfl, rfl⟩
  · intro b hidle hdone
    cases hfsm : c.fsm with
    | IDLE => exact absurd hfsm hidle
    | DONE => exact absurd hfsm hdone
    | INIT_HASH => simp only [step, hfsm]
    | ABSORB => simp only [step, hfsm]
    | PERMUTE => simp only [step, hfsm]
    | CHECK_RESULT => simp only [step, hfsm]

open Datapath in
/-- Witness for C9: with status 3 latched in Done, a held start keeps the
machine in Done with the status unchanged, and toggling start during a Permute
cycle does not change the step outcome. -/
theorem C9_done_handshake_witness :
    ((Datapath.step
        { start := true, stop := false, header_data := 0, input_length := 0,
          target_clz := 0, timeout_limit := 0, attempt_limit := 0 }
        { Datapath.resetConfig with fsm := .DONE, completion_status := 3 }).fsm
      = .DONE) ∧
    (Datapath.step
        { start := false, stop := false, header_data := 0, input_length := 0,
          target_clz := 0, timeout_limit := 0, attempt_limit := 0 }
        { Datapath.resetConfig with fsm := .PERMUTE }
      = Datapath.step
        { start := true, stop := false, header_data := 0, input_length := 0,
          target_clz := 0, timeout_limit := 0, attempt_limit := 0 }
        { Datapath.resetConfig with fsm := .PERMUTE }) := by
  constructor
  · exact ((C9_done_handshake _ _).1 rfl rfl).1
  · exact (C9_done_handshake
      { start := true, stop := false, header_data := 0, input_length := 0,
        target_clz := 0, timeout_limit := 0, attempt_limit := 0 }
      { Datapath.resetConfig with fsm := .PERMUTE }).2.2 false
      (by decide) (by decide)
open Datapath in
/-- C10: within one attempt (states InitHash, Absorb, Permute) each lane's
state evolution depends only on the header bytes, the input length and that
lane's own nonce: two configurations that differ only in lane B's nonce and
lane B's state take one FSM step to configurations that again differ only in
those two registers, and in particular lane A's state is identical; this holds
because the nonce mask is applied only at block address 0 and each lane XORs in
only its own mask. -/
theorem C10_lane_noninterference (inp : MinerInput) (c c2 : Config)
    (hAgree : agreeExceptLane1 c c2)
    (hphase : c.fsm = .INIT_HASH ∨ c.fsm = .ABSORB ∨ c.fsm = .PERMUTE) :
    agreeExceptLane1 (step inp c) (step inp c2) ∧
    (step inp c).state_0 = (step inp c2).state_0 := by
  obtain ⟨h1, h2, h3, h4, h5, h6, h7, h8, h9, h10, h11, h12⟩ := hAgree
  rcases hphase with hfsm | hfsm | hfsm
  · simp only [step, hfsm, ← h1, agreeExceptLane1, running]
    simp [hfsm, h2, h3, h4, h5, h6, h7, h8, h9, h10, h11, h12]
  · simp only [step, hfsm, ← h1, agreeExceptLane1, running]
    simp [hfsm, h2, h3, h4, h5, h6, h7, h8, h9, h10, h11, h12]
  · simp only [step, hfsm, ← h1, agreeExceptLane1, running]
    simp only [h3, h6, h7, h8, h9, h10]
    split
    · split
      · simp_all [agreeExceptLane1, running]
      · simp_all [agreeExceptLane1, running]
    · simp_all [agreeExceptLane1, running]

open Datapath in
/-- Witness for C10: two concrete Absorb configurations differing only in lane
B's nonce step to configurations that still agree on everything but lane B,
with identical lane-A states. -/
theorem C10_lane_noninterference_witness :
    Datapath.agreeExceptLane1
      (Datapath.step
        { start := true, stop := false, header_data := 0, input_length := 0,
          target_clz := 0, timeout_limit := 0, attempt_limit := 0 }
        { Datapath.resetConfig with fsm := .ABSORB })
      (Datapath.step
        { start := true, stop := false, header_data := 0, input_length := 0,
          target_clz := 0, timeout_limit := 0, attempt_limit := 0 }
        { Datapath.resetConfig with fsm := .ABSORB, nonce_1 := 12345 }) ∧
    (Datapath.step
        { start := true, stop := false, header_data := 0, input_length := 0,
          target_clz := 0, timeout_limit := 0, attempt_limit := 0 }
        { Datapath.resetConfig with fsm := .ABSORB }).state_0
      = (Datapath.step
        { start := true, stop := false, header_data := 0, input_length := 0,
          target_clz := 0, timeout_limit := 0, attempt_limit := 0 }
        { Datapath.resetConfig with fsm := .ABSORB, nonce_1 := 12345 }).state_0 :=
  C10_lane_noninterference _ _ _
    (by unfold Datapath.agreeExceptLane1; refine ⟨rfl, rfl, rfl, rfl, rfl, rfl, rfl, rfl, rfl, rfl, rfl, rfl⟩)
    (Or.inr (Or.inl rfl))
namespace Datapath

/-- Input configuration used to exhibit the timeout-semantics counterexample:
empty single-block header, unreachable target (300 > 256), cycle timeout limit
2, attempt limit disabled. -/
def cexTimeoutInput : MinerInput where
  start := true
  stop := false
  header_data := 0
  input_length := 0
  target_clz := 300
  timeout_limit := 2
  attempt_limit := 0

end Datapath

set_option maxRecDepth 100000 in
set_option maxHeartbeats 4000000 in
open Datapath in
/-- Counterexample for C8 as stated: with the cycle timeout limit configured to
2 and an unreachable target, the machine latches completion status 3 (timeout)
at cycle 28 after exactly ONE CheckResult visit, not after the configured
number (2) of attempt-checks: the timeout limit counts running clock cycles,
not CheckResult visits. -/
theorem C8_counterexample :
    Datapath.cexTimeoutInput.timeout_limit = 2 ∧
    (Datapath.runN Datapath.cexTimeoutInput 28).fsm = Datapath.FsmState.DONE ∧
    (Datapath.runN Datapath.cexTimeoutInput 28).completion_status = 3 ∧
    (Datapath.cfgTrace Datapath.cexTimeoutInput 28).countP
        (fun c => decide (c.fsm = Datapath.FsmState.CHECK_RESULT)) = 1 := by
  refine ⟨rfl, ?_, ?_, ?_⟩ <;> decide
open Datapath in
/-- C8 (amended): the timeout and attempt limits are consulted only at a
CheckResult visit (every other state's transition is independent of them, so
they are polled exactly once per visit, not once per cycle); a configured limit
of zero disables that check entirely (with both limits zero the machine can
only terminate by finding a lane); when both limits trigger at the same
CheckResult, timeout takes priority; and with the target unreachable the
status latched is timeout exactly at the first CheckResult visit at which the
elapsed running-cycle count has reached the configured timeout limit — the
limit counts clock cycles, not attempt-checks. -/
theorem C8_limit_semantics (inp : MinerInput) (c : Config) :
    (∀ a b, c.fsm ≠ .CHECK_RESULT →
        step { inp with timeout_limit := a, attempt_limit := b } c = step inp c) ∧
    (c.fsm = .CHECK_RESULT → inp.timeout_limit % 2 ^ 32 = 0 →
        inp.attempt_limit % 2 ^ 64 = 0 → (step inp c).fsm = .DONE →
        (step inp c).completion_status = 1 ∨ (step inp c).completion_status = 2) ∧
    (c.fsm = .CHECK_RESULT → timeoutHit inp c → attemptHit inp c →
        (step inp c).completion_status = 3 ∧ (step inp c).fsm = .DONE) ∧
    (c.fsm = .CHECK_RESULT →
        (timeoutHit inp c ↔
          ((step inp c).fsm = .DONE ∧ (step inp c).completion_status = 3))) := by
  refine ⟨?_, ?_, ?_, ?_⟩
  · intro a b hfsm
    cases hc : c.fsm with
    | CHECK_RESULT => exact absurd hc hfsm
    | IDLE => simp only [step, hc]
    | INIT_HASH => simp only [step, hc]
    | ABSORB => simp only [step, hc]
    | PERMUTE => simp only [step, hc]
    | DONE => simp only [step, hc]
  · intro hfsm hT0 hA0 hdone
    have hT : ¬ timeoutHit inp c := fun h => h.1 hT0
    have hA : ¬ attemptHit inp c := fun h => h.1 hA0
    simp only [step, hfsm] at hdone ⊢
    rw [if_neg hT, if_neg hA] at hdone ⊢
    by_cases h0 : inp.target_clz % 2 ^ 9 ≤ ClzHw.clz_out (c.state_0 % 2 ^ 256)
    · rw [if_pos h0]
      exact Or.inl rfl
    · rw [if_neg h0] at hdone ⊢
      by_cases h1 : inp.target_clz % 2 ^ 9 ≤ ClzHw.clz_out (c.state_1 % 2 ^ 256)
      · rw [if_pos h1]
        exact Or.inr rfl
      · rw [if_neg h1] at hdone
        cases hs : inp.stop with
        | true => rw [hs] at hdone; simp at hdone
        | false => rw [hs] at hdone; simp at hdone
  · intro hfsm hT hA
    simp only [step, hfsm]
    rw [if_pos hT]
    exact ⟨rfl, rfl⟩
  · intro hfsm
    constructor
    · intro hT
      simp only [step, hfsm]
      rw [if_pos hT]
      exact ⟨rfl, rfl⟩
    · rintro ⟨hdone, hst⟩
      by_contra hT
      simp only [step, hfsm] at hdone hst
      rw [if_neg hT] at hdone hst
      by_cases hA : attemptHit inp c
      · rw [if_pos hA] at hst
        simp at hst
      · rw [if_neg hA] at hdone hst
        by_cases h0 : inp.target_clz % 2 ^ 9 ≤ ClzHw.clz_out (c.state_0 % 2 ^ 256)
        · rw [if_pos h0] at hst
          simp at hst
        · rw [if_neg h0] at hdone hst
          by_cases h1 : inp.target_clz % 2 ^ 9 ≤ ClzHw.clz_out (c.state_1 % 2 ^ 256)
          · rw [if_pos h1] at hst
            simp at hst
          · rw [if_neg h1] at hdone
            cases hs : inp.stop with
            | true => rw [hs] at hdone; simp at hdone
            | false => rw [hs] at hdone; simp at hdone

set_option maxRecDepth 100000 in
open Datapath in
/-- Witness for C8: permuting the limits in an Absorb state leaves the step
unchanged, and a CheckResult with both limits reached latches timeout (3). -/
theorem C8_limit_semantics_witness :
    (Datapath.step
        { start := true, stop := false, header_data := 0, input_length := 0,
          target_clz := 0, timeout_limit := 9, attempt_limit := 9 }
        { Datapath.resetConfig with fsm := .ABSORB }
      = Datapath.step
        { start := true, stop := false, header_data := 0, input_length := 0,
          target_clz := 0, timeout_limit := 0, attempt_limit := 0 }
        { Datapath.resetConfig with fsm := .ABSORB }) ∧
    (Datapath.step
        { start := true, stop := false, header_data := 0, input_length := 0,
          target_clz := 0, timeout_limit := 3, attempt_limit := 4 }
        { Datapath.resetConfig with fsm := .CHECK_RESULT, timeout_counter := 8,
                                    attempts_counter := 8 }).completion_status = 3 := by
  constructor
  · exact (C8_limit_semantics
      { start := true, stop := false, header_data := 0, input_length := 0,
        target_clz := 0, timeout_limit := 0, attempt_limit := 0 }
      { Datapath.resetConfig with fsm := .ABSORB }).1 9 9 (by decide)
  · exact ((C8_limit_semantics _ _).2.2.1 rfl (by decide) (by decide)).1
namespace Datapath

/-- Raw 64-bit word `i` of block `b` as assembled little-endian from the header
byte buffer (the BRAM contents feeding `header_data`). -/
def rawWord (hdr : Nat → Nat) (b i : Nat) : Nat :=
  (List.range 8).foldl (fun acc j => acc + hdr (136 * b + 8 * i + j) % 256 * 2 ^ (8 * j)) 0

/-- Byte `g` of the just-in-time padded message stream: the JIT padding logic
applied to word `(g mod 136) / 8` of block `g / 136`, extracting byte
`g mod 8`. -/
def hwPaddedByte (input_length : Nat) (hdr : Nat → Nat) (g : Nat) : Nat :=
  word_out input_length (g / 136) (total_blocks input_length) (g % 136 / 8)
      (rawWord hdr (g / 136) (g % 136 / 8)) >>> (8 * (g % 8)) % 256

end Datapath

namespace Sha3Ref

/-- Byte `g` of the pad10*1-padded message exactly as the reference software
implementation (sha3_256_sw) builds it: input bytes copied verbatim below
`input_length`, the byte 0x06 at index `input_length`, the byte 0x80 OR-ed
into the last byte of the final 136-byte block, zeros in between. -/
def refPaddedByte (input_length : Nat) (hdr : Nat → Nat) (g : Nat) : Nat :=
  if g < input_length then hdr g % 256
  else
    (if g = input_length then 0x06 else 0) |||
    (if g = 136 * (input_length / 136 + 1) - 1 then 0x80 else 0)

end Sha3Ref

theorem clear_mask_eq (r : Nat) (hr : r < 8) :
    Datapath.clear_masks.getD r 0 = 2 ^ (8 * r) - 1 := by
  interval_cases r <;> rfl

theorem set06_eq (r : Nat) (hr : r < 8) :
    Datapath.set_06_masks.getD r 0 = 6 * 2 ^ (8 * r) := by
  interval_cases r <;> rfl

theorem padStart_sum (raw r : Nat) (hr : r < 8) :
    (raw &&& Datapath.clear_masks.getD r 0 ||| Datapath.set_06_masks.getD r 0)
      = 6 * 2 ^ (8 * r) + raw % 2 ^ (8 * r) := by
  rw [clear_mask_eq r hr, set06_eq r hr, Nat.and_pow_two_sub_one_eq_mod]
  have h := Nat.mul_add_lt_is_or (Nat.mod_lt raw (Nat.two_pow_pos (8 * r))) 6
  rw [Nat.or_comm, Nat.mul_comm 6 (2 ^ (8 * r))]
  exact h.symm

theorem or80_sum (w : Nat) (hw : w < 2 ^ 63) :
    w ||| 0x8000000000000000 = 2 ^ 63 + w := by
  have h := Nat.mul_add_lt_is_or hw 1
  have h2 : (0x8000000000000000 : Nat) = 2 ^ 63 * 1 := by norm_num
  rw [Nat.or_comm, h2, ← h, Nat.mul_one]

theorem rawWord_sum (hdr : Nat → Nat) (b i : Nat) :
    Datapath.rawWord hdr b i =
      hdr (136 * b + 8 * i) % 256 +
      2 ^ 8 * (hdr (136 * b + 8 * i + 1) % 256) +
      2 ^ 16 * (hdr (136 * b + 8 * i + 2) % 256) +
      2 ^ 24 * (hdr (136 * b + 8 * i + 3) % 256) +
      2 ^ 32 * (hdr (136 * b + 8 * i + 4) % 256) +
      2 ^ 40 * (hdr (136 * b + 8 * i + 5) % 256) +
      2 ^ 48 * (hdr (136 * b + 8 * i + 6) % 256) +
      2 ^ 56 * (hdr (136 * b + 8 * i + 7) % 256) := by
  show (List.range 8).foldl _ 0 = _
  rw [show List.range 8 = [0, 1, 2, 3, 4, 5, 6, 7] from rfl]
  simp only [List.foldl_cons, List.foldl_nil, Nat.add_zero]
  ring

theorem rawWord_byte (hdr : Nat → Nat) (b i j : Nat) (hj : j < 8) :
    Datapath.rawWord hdr b i >>> (8 * j) % 256 = hdr (136 * b + 8 * i + j) % 256 := by
  rw [Nat.shiftRight_eq_div_pow, rawWord_sum]
  have e0 := Nat.mod_lt (hdr (136 * b + 8 * i)) (show 0 < 256 by norm_num)
  have e1 := Nat.mod_lt (hdr (136 * b + 8 * i + 1)) (show 0 < 256 by norm_num)
  have e2 := Nat.mod_lt (hdr (136 * b + 8 * i + 2)) (show 0 < 256 by norm_num)
  have e3 := Nat.mod_lt (hdr (136 * b + 8 * i + 3)) (show 0 < 256 by norm_num)
  have e4 := Nat.mod_lt (hdr (136 * b + 8 * i + 4)) (show 0 < 256 by norm_num)
  have e5 := Nat.mod_lt (hdr (136 * b + 8 * i + 5)) (show 0 < 256 by norm_num)
  have e6 := Nat.mod_lt (hdr (136 * b + 8 * i + 6)) (show 0 < 256 by norm_num)
  have e7 := Nat.mod_lt (hdr (136 * b + 8 * i + 7)) (show 0 < 256 by norm_num)
  interval_cases j
  · rw [show 136 * b + 8 * i + 0 = 136 * b + 8 * i by omega]
    omega
  all_goals omega
theorem padStart_word_byte (raw r j : Nat) (hr : r < 8) (hj : j < 8) :
    (raw &&& Datapath.clear_masks.getD r 0 ||| Datapath.set_06_masks.getD r 0) >>> (8 * j) % 256
      = if j < r then raw >>> (8 * j) % 256 else if j = r then 6 else 0 := by
  rw [padStart_sum raw r hr, Nat.shiftRight_eq_div_pow, Nat.shiftRight_eq_div_pow]
  interval_cases r <;> interval_cases j <;> simp <;> omega

theorem collision_word_byte (raw r j : Nat) (hr : r < 8) (hj : j < 8) :
    ((raw &&& Datapath.clear_masks.getD r 0 ||| Datapath.set_06_masks.getD r 0) |||
        0x8000000000000000) >>> (8 * j) % 256
      = (if j < r then raw >>> (8 * j) % 256 else if j = r then 6 else 0) |||
        (if j = 7 then 0x80 else 0) := by
  rw [padStart_sum raw r hr]
  have hm := Nat.mod_lt raw (Nat.two_pow_pos (8 * r))
  rw [or80_sum _ (by interval_cases r <;> omega)]
  rw [Nat.shiftRight_eq_div_pow, Nat.shiftRight_eq_div_pow]
  interval_cases r <;> interval_cases j <;> simp <;> omega

theorem end_word_byte (j : Nat) (hj : j < 8) :
    (0x8000000000000000 : Nat) >>> (8 * j) % 256 = if j = 7 then 0x80 else 0 := by
  interval_cases j <;> decide
theorem total_blocks_small (len : Nat) (hlen : len < 2040) :
    Datapath.total_blocks len = len / 136 + 1 := by
  unfold Datapath.total_blocks
  by_cases h0 : len < 136
  · rw [if_pos h0]
    omega
  rw [if_neg h0]
  by_cases h1 : len < 272
  · rw [if_pos h1]
    omega
  rw [if_neg h1]
  by_cases h2 : len < 408
  · rw [if_pos h2]
    omega
  rw [if_neg h2]
  by_cases h3 : len < 544
  · rw [if_pos h3]
    omega
  rw [if_neg h3]
  by_cases h4 : len < 680
  · rw [if_pos h4]
    omega
  rw [if_neg h4]
  by_cases h5 : len < 816
  · rw [if_pos h5]
    omega
  rw [if_neg h5]
  by_cases h6 : len < 952
  · rw [if_pos h6]
    omega
  rw [if_neg h6]
  by_cases h7 : len < 1088
  · rw [if_pos h7]
    omega
  rw [if_neg h7]
  by_cases h8 : len < 1224
  · rw [if_pos h8]
    omega
  rw [if_neg h8]
  by_cases h9 : len < 1360
  · rw [if_pos h9]
    omega
  rw [if_neg h9]
  by_cases h10 : len < 1496
  · rw [if_pos h10]
    omega
  rw [if_neg h10]
  by_cases h11 : len < 1632
  · rw [if_pos h11]
    omega
  rw [if_neg h11]
  by_cases h12 : len < 1768
  · rw [if_pos h12]
    omega
  rw [if_neg h12]
  by_cases h13 : len < 1904
  · rw [if_pos h13]
    omega
  rw [if_neg h13]
  by_cases h14 : len < 2040
  · rw [if_pos h14]
    omega
  rw [if_neg h14]
  exact absurd hlen h14

theorem msgEnd_cond_eq (a T : Nat) (hT : 1 ≤ T) :
    ((a : Int) = (T : Int) * 17 - 1) = (a = T * 17 - 1) :=
  propext (by omega)

theorem hwPaddedByte_eq_ref (len : Nat) (hlen : len < 2040) (hdr : Nat → Nat)
    (g : Nat) (hg : g < 136 * Datapath.total_blocks len) :
    Datapath.hwPaddedByte len hdr g = Sha3Ref.refPaddedByte len hdr g := by
  rw [total_blocks_small len hlen] at hg
  unfold Datapath.hwPaddedByte
  rw [total_blocks_small len hlen]
  simp only [Datapath.word_out]
  rw [show len >>> 3 = len / 8 by rw [Nat.shiftRight_eq_div_pow]]
  rw [show g / 136 * 17 + g % 136 / 8 = g / 8 by omega]
  simp only [msgEnd_cond_eq (g / 8) (len / 136 + 1) (by omega)]
  by_cases c1 : g / 8 = len / 8
  · by_cases c2 : g / 8 = (len / 136 + 1) * 17 - 1
    · -- collision word: pad start and message end share this word
      rw [if_pos ⟨c1, c2⟩]
      rw [collision_word_byte _ (len % 8) (g % 8) (by omega) (by omega)]
      by_cases c3 : g % 8 < len % 8
      · rw [if_pos c3, rawWord_byte hdr (g / 136) (g % 136 / 8) (g % 8) (by omega),
          show 136 * (g / 136) + 8 * (g % 136 / 8) + g % 8 = g by omega,
          if_neg (show ¬ g % 8 = 7 by omega), Nat.or_zero,
          Sha3Ref.refPaddedByte, if_pos (show g < len by omega)]
      · by_cases c4 : g % 8 = len % 8
        · rw [if_neg c3, if_pos c4]
          unfold Sha3Ref.refPaddedByte
          rw [if_neg (show ¬ g < len by omega), if_pos (show g = len by omega)]
          by_cases c5 : g % 8 = 7
          · rw [if_pos c5, if_pos (show g = 136 * (len / 136 + 1) - 1 by omega)]
          · rw [if_neg c5, if_neg (show ¬ g = 136 * (len / 136 + 1) - 1 by omega)]
        · rw [if_neg c3, if_neg c4]
          unfold Sha3Ref.refPaddedByte
          rw [if_neg (show ¬ g < len by omega), if_neg (show ¬ g = len by omega)]
          by_cases c5 : g % 8 = 7
          · rw [if_pos c5, if_pos (show g = 136 * (len / 136 + 1) - 1 by omega)]
          · rw [if_neg c5, if_neg (show ¬ g = 136 * (len / 136 + 1) - 1 by omega)]
    · -- pad-start word only
      rw [if_neg (fun h => c2 h.2), if_pos c1]
      rw [padStart_word_byte _ (len % 8) (g % 8) (by omega) (by omega)]
      by_cases c3 : g % 8 < len % 8
      · rw [if_pos c3, rawWord_byte hdr (g / 136) (g % 136 / 8) (g % 8) (by omega),
          show 136 * (g / 136) + 8 * (g % 136 / 8) + g % 8 = g by omega,
          Sha3Ref.refPaddedByte, if_pos (show g < len by omega)]
      · by_cases c4 : g % 8 = len % 8
        · rw [if_neg c3, if_pos c4]
          unfold Sha3Ref.refPaddedByte
          rw [if_neg (show ¬ g < len by omega), if_pos (show g = len by omega),
            if_neg (show ¬ g = 136 * (len / 136 + 1) - 1 by omega), Nat.or_zero]
        · rw [if_neg c3, if_neg c4]
          unfold Sha3Ref.refPaddedByte
          rw [if_neg (show ¬ g < len by omega), if_neg (show ¬ g = len by omega),
            if_neg (show ¬ g = 136 * (len / 136 + 1) - 1 by omega), Nat.or_zero]
  · by_cases c2 : g / 8 = (len / 136 + 1) * 17 - 1
    · -- message-end word (strictly after the pad-start word)
      rw [if_neg (fun h => c1 h.1), if_neg c1, if_pos c2]
      rw [end_word_byte (g % 8) (by omega)]
      have hple : len / 8 < g / 8 := by omega
      unfold Sha3Ref.refPaddedByte
      rw [if_neg (show ¬ g < len by omega), if_neg (show ¬ g = len by omega),
        Nat.zero_or]
      by_cases c5 : g % 8 = 7
      · rw [if_pos c5, if_pos (show g = 136 * (len / 136 + 1) - 1 by omega)]
      · rw [if_neg c5, if_neg (show ¬ g = 136 * (len / 136 + 1) - 1 by omega)]
    · rw [if_neg (fun h => c1 h.1), if_neg c1, if_neg c2]
      by_cases c3 : len / 8 < g / 8
      · -- zero-fill word
        rw [if_pos c3]
        unfold Sha3Ref.refPaddedByte
        rw [if_neg (show ¬ g < len by omega), if_neg (show ¬ g = len by omega),
          if_neg (show ¬ g = 136 * (len / 136 + 1) - 1 by omega)]
        simp
      · -- plain data word
        rw [if_neg c3]
        rw [rawWord_byte hdr (g / 136) (g % 136 / 8) (g % 8) (by omega),
          show 136 * (g / 136) + 8 * (g % 136 / 8) + g % 8 = g by omega,
          Sha3Ref.refPaddedByte, if_pos (show g < len by omega)]
/-- Counterexample for C2 as stated: at input_length = 0, which is ≡ 0 (mod 136),
the pad-start byte 0x06 and the end byte 0x80 do NOT coincide: 0x06 lands in
byte 0 and 0x80 in byte 135 of the single padded block, two different bytes. -/
theorem C2_counterexample :
    (0 : Nat) % 136 = 0 ∧
    Datapath.hwPaddedByte 0 (fun _ => 0) 0 = 0x06 ∧
    Datapath.hwPaddedByte 0 (fun _ => 0) 135 = 0x80 := by
  refine ⟨rfl, by decide, by decide⟩

theorem wrap_byte_2175 (hdr : Nat → Nat) :
    Datapath.hwPaddedByte 2175 hdr 2175 = 0x06 := by
  unfold Datapath.hwPaddedByte
  rw [show Datapath.total_blocks 2175 = 0 by decide]
  simp only [Datapath.word_out]
  rw [show (2175 : Nat) % 8 = 7 by decide]
  split
  · rename_i h
    exact absurd h.2 (by decide)
  · split
    · rw [padStart_word_byte _ 7 7 (by decide) (by decide)]
      norm_num
    · rename_i h
      exact absurd (by decide) h

/-- C2 (amended): for input_length below 2040 the padded stream matches the
reference pad10*1 rule (0x06 at byte index input_length, 0x80 OR-ed into byte
135 of the final block, zeros strictly between them, input bytes copied
verbatim before the pad start); the two markers coincide in one byte,
OR-combined to 0x86, exactly when input_length ≡ 135 (mod 136) — the final
block is full up to its last byte — and for every other such input_length they
land in different bytes.  For the accepted lengths 2040..2175 the 4-bit
total_blocks register wraps the assigned 16 to 0 (see C7), the signed
`total*17 - 1` becomes -1, and the 0x80 end marker is never placed: at
input_length 2175 the final byte of the stream is 0x06, not 0x86. -/
theorem C2_padding_markers (len : Nat) (hlen : len < 2040) (hdr : Nat → Nat) :
    (∀ g, g < 136 * Datapath.total_blocks len →
        Datapath.hwPaddedByte len hdr g = Sha3Ref.refPaddedByte len hdr g) ∧
    (len % 136 = 135 →
        len = 136 * Datapath.total_blocks len - 1 ∧
        Datapath.hwPaddedByte len hdr len = 0x86) ∧
    (len % 136 ≠ 135 →
        len ≠ 136 * Datapath.total_blocks len - 1 ∧
        Datapath.hwPaddedByte len hdr len = 0x06 ∧
        Datapath.hwPaddedByte len hdr (136 * Datapath.total_blocks len - 1) = 0x80) ∧
    Datapath.hwPaddedByte 2175 hdr 2175 = 0x06 := by
  have href := hwPaddedByte_eq_ref len hlen hdr
  have htb := total_blocks_small len hlen
  refine ⟨href, ?_, ?_, wrap_byte_2175 hdr⟩
  · intro h135
    rw [htb]
    refine ⟨by omega, ?_⟩
    rw [href len (by rw [htb]; omega)]
    unfold Sha3Ref.refPaddedByte
    rw [if_neg (Nat.lt_irrefl len), if_pos rfl,
      if_pos (show len = 136 * (len / 136 + 1) - 1 by omega)]
    decide
  · intro h135
    rw [htb]
    refine ⟨by omega, ?_, ?_⟩
    · rw [href len (by rw [htb]; omega)]
      unfold Sha3Ref.refPaddedByte
      rw [if_neg (Nat.lt_irrefl len), if_pos rfl,
        if_neg (show ¬ len = 136 * (len / 136 + 1) - 1 by omega)]
      decide
    · rw [href (136 * (len / 136 + 1) - 1) (by rw [htb]; omega)]
      unfold Sha3Ref.refPaddedByte
      rw [if_neg (show ¬ 136 * (len / 136 + 1) - 1 < len by omega),
        if_neg (show ¬ 136 * (len / 136 + 1) - 1 = len by omega), if_pos rfl]
      decide

/-- Witness for C2 (amended): at input_length 271 ≡ 135 (mod 136) the two pad
markers coincide in the last byte of the final block as 0x86. -/
theorem C2_padding_markers_witness :
    271 = 136 * Datapath.total_blocks 271 - 1 ∧
    Datapath.hwPaddedByte 271 (fun _ => 0) 271 = 0x86 :=
  (C2_padding_markers 271 (by omega) (fun _ => 0)).2.1 (by decide)
